import Mathlib

/-!
Verification of the task-polling and lyrics-synchronization core of the
GenerateMusic desktop client (`src/desktop/src/utils/lyrics.ts` and
`src/desktop/src/hooks/useTrackActions.ts`), shallowly embedded in Lean.
Strings are Lean `String`s; JS numbers arising from `[MM:SS.ff]` timestamps
are represented exactly as rationals.
-/

namespace GenerateMusic

/-- JS regex `\s` / `String.prototype.trim` whitespace class (WhiteSpace
together with the line terminators). -/
def jsWhitespace (c : Char) : Bool :=
  c = ' ' ∨ c = '\t' ∨ c = '\n' ∨ c.toNat = 11 ∨ c.toNat = 12 ∨ c = '\r' ∨
  c.toNat = 0xa0 ∨ c.toNat = 0x1680 ∨ (0x2000 ≤ c.toNat ∧ c.toNat ≤ 0x200a) ∨
  c.toNat = 0x2028 ∨ c.toNat = 0x2029 ∨ c.toNat = 0x202f ∨ c.toNat = 0x205f ∨
  c.toNat = 0x3000 ∨ c.toNat = 0xfeff

/-- JS line terminators: the characters regex `.` does not match. -/
def isLineTerm (c : Char) : Bool :=
  c = '\n' ∨ c = '\r' ∨ c.toNat = 0x2028 ∨ c.toNat = 0x2029

/-- JS `String.prototype.trim` on a character list. -/
def jsTrimChars (cs : List Char) : List Char :=
  ((cs.dropWhile jsWhitespace).reverse.dropWhile jsWhitespace).reverse

/-- Numeric value of a decimal digit character. -/
def dval (c : Char) : Nat := c.toNat - 48

/-- Prepend a character to the first string of a list. -/
def consHead (c : Char) : List String → List String
  | [] => [String.mk [c]]
  | s :: ss => String.mk (c :: s.data) :: ss

/-- JS `String.prototype.split("\n")` on a character list: every `\n` is a
separator, empty pieces are kept, and the empty input yields `[""]`. -/
def splitNlChars : List Char → List String
  | [] => [""]
  | c :: rest =>
    if c = '\n' then "" :: splitNlChars rest else consHead c (splitNlChars rest)

/-- JS `s.split("\n")`. -/
def splitNl (s : String) : List String := splitNlChars s.data

/-- Matcher for the LRC line regex `^\[(\d{2}):(\d{2})\.(\d{2,3})\](.*)$`
(from `parseLRC` / `lrcToPlain`): returns the timestamp in seconds and the
trimmed text part.  A 2-digit fractional part is centiseconds (scaled by
10 to milliseconds), a 3-digit one is milliseconds; the source's
`minutes * 60 + seconds + ms / 1000` is built here as the single exact
rational `((minutes * 60 + seconds) * 1000 + ms) / 1000`. -/
def lrcLineMatch (raw : String) : Option (ℚ × String) :=
  match raw.data with
  | '[' :: m1 :: m2 :: ':' :: s1 :: s2 :: '.' :: rest =>
    if m1.isDigit && m2.isDigit && s1.isDigit && s2.isDigit then
      match rest with
      | f1 :: f2 :: rest2 =>
        if f1.isDigit && f2.isDigit then
          let mins : Nat := dval m1 * 10 + dval m2
          let secs : Nat := dval s1 * 10 + dval s2
          match rest2 with
          | ']' :: tail =>
            if tail.all (fun c => !(isLineTerm c)) then
              let ms : Nat := (dval f1 * 10 + dval f2) * 10
              some (mkRat ((mins * 60 + secs) * 1000 + ms) 1000,
                    String.mk (jsTrimChars tail))
            else none
          | f3 :: ']' :: tail =>
            if f3.isDigit then
              if tail.all (fun c => !(isLineTerm c)) then
                let ms : Nat := dval f1 * 100 + dval f2 * 10 + dval f3
                some (mkRat ((mins * 60 + secs) * 1000 + ms) 1000,
                      String.mk (jsTrimChars tail))
              else none
            else none
          | _ => none
        else none
      | _ => none
    else none
  | _ => none

/-- Case-insensitive (ASCII simple folding, as with a non-unicode JS regex)
literal prefix strip: `stripCI pat cs` removes the pattern `pat` (given in
lowercase) from the front of `cs`. -/
def stripCI : List Char → List Char → Option (List Char)
  | [], cs => some cs
  | _ :: _, [] => none
  | p :: ps, c :: cs => if c.toLower = p then stripCI ps cs else none

/-- First defined value in a list of alternatives (regex alternation:
first alternative that matches wins; the alternatives of `SECTION_PATTERN`
are pairwise prefix-disjoint, so committed choice agrees with
backtracking). -/
def firstSome : List (Option α) → Option α
  | [] => none
  | some a :: _ => some a
  | none :: rest => firstSome rest

/-- One alternative of `SECTION_PATTERN`'s alternation, in source order;
returns the rest of the input after the matched alternative. -/
def sectionAlt (cs : List Char) : Option (List Char) :=
  firstSome
    [stripCI "intro".data cs,
     (stripCI "verse".data cs).map
       (fun r => (r.dropWhile jsWhitespace).dropWhile Char.isDigit),
     (stripCI "pre".data cs).bind (fun r =>
       stripCI "chorus".data (match r with | '-' :: r' => r' | _ => r)),
     stripCI "chorus".data cs,
     stripCI "bridge".data cs,
     stripCI "outro".data cs,
     (stripCI "instrumental".data cs).bind (fun r =>
       stripCI "break".data (r.dropWhile jsWhitespace)),
     stripCI "前奏".data cs,
     stripCI "主歌".data cs,
     (stripCI "副歌".data cs).map
       (fun r => match r with | '前' :: r' => r' | _ => r),
     stripCI "预副歌".data cs,
     stripCI "导歌".data cs,
     stripCI "桥段".data cs,
     stripCI "过桥".data cs,
     stripCI "过渡".data cs,
     stripCI "间奏".data cs,
     stripCI "尾声".data cs,
     stripCI "结尾".data cs,
     stripCI "尾奏".data cs,
     match cs with
     | '第' :: x :: '段' :: r =>
       if x = '一' ∨ x = '二' ∨ x = '三' then some r else none
     | _ => none]

/-- The common suffix `\s*\d?\]?\s*$` of `SECTION_PATTERN`. -/
def sectionSuffixOk (cs : List Char) : Bool :=
  let cs1 := cs.dropWhile jsWhitespace
  let cs2 := match cs1 with
    | c :: rest => if c.isDigit then rest else cs1
    | [] => []
  let cs3 := match cs2 with
    | c :: rest => if c = ']' then rest else cs2
    | [] => []
  (cs3.dropWhile jsWhitespace).isEmpty

/-- Model of `SECTION_PATTERN.test`: structural section markers excluded from
`parseLRC` output (anchored, optional leading bracket, alternation of
section names, then `\s*\d?\]?\s*$`, case-insensitive). -/
def sectionPatternTest (text : String) : Bool :=
  let cs := text.data
  let cs := match cs with | '[' :: r => r | _ => cs
  match sectionAlt cs with
  | some r => sectionSuffixOk r
  | none => false

/-- Structure `TimedLyricLine` from `lyrics.ts`. -/
structure TimedLyricLine where
  time : ℚ
  text : String
deriving DecidableEq, Repr

/-- Loop body of `parseLRC`: push the line's timed entry when it matches
with non-empty, non-structural text. -/
def parseLRCStep (acc : List TimedLyricLine) (raw : String) :
    List TimedLyricLine :=
  match lrcLineMatch raw with
  | some (time, text) =>
    if text ≠ "" ∧ ¬ (sectionPatternTest text = true) then
      acc ++ [⟨time, text⟩]
    else acc
  | none => acc

/-- Model of `parseLRC` from `lyrics.ts`: fold over the `\n`-split lines, keeping
matching LRC lines whose trimmed text is non-empty and not a structural
marker. -/
def parseLRC (lrc : String) : List TimedLyricLine :=
  (splitNl lrc).foldl parseLRCStep []

/-- Per-line keep function for the `parseLRC` characterization: the line's
contribution to the output. -/
def lrcKeep (raw : String) : Option TimedLyricLine :=
  match lrcLineMatch raw with
  | some (time, text) =>
    if text ≠ "" ∧ ¬ (sectionPatternTest text = true) then some ⟨time, text⟩
    else none
  | none => none

/-- Loop body of `lrcToPlain`: state is the output lines so far and
`prevTime`. -/
def lrcToPlainStep (st : List String × ℚ) (raw : String) : List String × ℚ :=
  match lrcLineMatch raw with
  | some (time, text) =>
    if text = "" then st
    else
      let res := if st.1.length > 0 ∧ time - st.2 > 6 then st.1 ++ [""] else st.1
      (res ++ [text], time)
  | none => (st.1 ++ [raw], st.2)

/-- Model of `lrcToPlain` from `lyrics.ts`: strip LRC timestamps; pass non-LRC lines
through; skip matched lines with empty trimmed text; push a blank line
before a matched line when the output is non-empty and the gap from the
previous matched line's timestamp exceeds 6 seconds. -/
def lrcToPlain (lrc : String) : String :=
  String.intercalate "\n" ((splitNl lrc).foldl lrcToPlainStep ([], 0)).1

/-- Scan loop of `findActiveLRCIndex`: walk the list at index `i` keeping the
last index whose time was `≤ currentTime` in `active`; stop at the first
line whose time exceeds `currentTime`. -/
def findGo (currentTime : ℚ) : List TimedLyricLine → Int → Int → Int
  | [], _, active => active
  | l :: rest, i, active =>
    if l.time ≤ currentTime then findGo currentTime rest (i + 1) i else active

/-- Model of `findActiveLRCIndex` from `lyrics.ts`. -/
def findActiveLRCIndex (lines : List TimedLyricLine) (currentTime : ℚ) : Int :=
  if lines.length = 0 then -1
  else findGo currentTime lines 0 (-1)

/-- Structure `LyricSection` from `lyrics.ts`. -/
structure LyricSection where
  tag : String
  lines : List String
  index : Nat
deriving DecidableEq, Repr

/-- Split a character list as `mid ++ [']']`. -/
def splitLastBracket : List Char → Option (List Char)
  | [] => none
  | [c] => if c = ']' then some [] else none
  | c :: cs => (splitLastBracket cs).map (c :: ·)

/-- Matcher for `parseLyrics`' tag regex `^\[(.+)\]$`: the whole line must
be `[` + a non-empty run of non-line-terminator characters + `]`; returns
the captured tag. -/
def tagOf (line : String) : Option String :=
  match line.data with
  | c :: rest =>
    if c = '[' then
      match splitLastBracket rest with
      | some mid =>
        if mid ≠ [] ∧ mid.all (fun c => !(isLineTerm c)) then some (String.mk mid)
        else none
      | none => none
    else none
  | [] => none

/-- The loop of `parseLyrics`: state is the pending tag, pending line list
and next section index; a pending section is emitted when a tag line is hit
or at end of input, provided it has accumulated lines or a non-empty tag. -/
def parseLyricsGo : List String → String → List String → Nat → List LyricSection
  | [], tag, acc, idx =>
    if acc.length > 0 ∨ tag ≠ "" then [⟨tag, acc, idx⟩] else []
  | l :: ls, tag, acc, idx =>
    match tagOf l with
    | some t =>
      if acc.length > 0 ∨ tag ≠ "" then
        ⟨tag, acc, idx⟩ :: parseLyricsGo ls t [] (idx + 1)
      else
        parseLyricsGo ls t [] idx
    | none => parseLyricsGo ls tag (acc ++ [l]) idx

/-- Model of `parseLyrics` from `lyrics.ts`. -/
def parseLyrics (lyrics : String) : List LyricSection :=
  parseLyricsGo (splitNl lyrics) "" [] 0

/-- Modelled from the spec: group the line list from the right — returns
the leading run of non-tag lines together with the `(tag, body)` groups
opened by each tag line. -/
def splitSections : List String → List String × List (String × List String)
  | [] => ([], [])
  | l :: ls =>
    let rest := splitSections ls
    match tagOf l with
    | some t => ([], (t, rest.1) :: rest.2)
    | none => (l :: rest.1, rest.2)

/-- Assign consecutive indexes starting at `idx` to `(tag, body)` groups. -/
def mkSecs : List (String × List String) → Nat → List LyricSection
  | [], _ => []
  | (t, b) :: gs, idx => ⟨t, b, idx⟩ :: mkSecs gs (idx + 1)

/-- Modelled from the spec: sections are the leading untagged block (kept
only when non-empty) followed by one section per tag line, indexed
consecutively from 0. -/
def specSections (s : String) : List LyricSection :=
  let p := splitSections (splitNl s)
  mkSecs ((if p.1 ≠ [] then [("", p.1)] else []) ++ p.2) 0

/-- Source-text representation of one parsed section: its tag line (absent
for the empty tag) followed by its body lines. -/
def sectionRepr (sec : LyricSection) : List String :=
  (if sec.tag = "" then [] else ["[" ++ sec.tag ++ "]"]) ++ sec.lines

/-- Re-join parsed sections back into the source line sequence. -/
def reconstructSections (secs : List LyricSection) : List String :=
  (secs.map sectionRepr).flatten

/-! ## Task poller (`useTaskPolling` in `useTrackActions.ts`)

The poller runs on the single-threaded JS event loop.  An execution is a
sequence of atomic events: `startPoll` (`pollTask(taskId)`), `fireTick`
(one interval tick starts a status fetch for its closure's task),
`resolveFetch` (an in-flight fetch settles and the `await` continuation —
the rest of the interval callback — runs), and `cancelPolling`.  Crucially,
`clearInterval` stops future ticks of a timer but does not stop the
continuation of a fetch that is already in flight. -/

/-- The task-status object returned by `api.getTaskStatus` (optional JSON
fields are `Option`). -/
structure GenResult where
  status : String
  progress : Option ℚ
  progress_message : Option String
  lyrics : Option String
  title : Option String
  error_message : Option String
deriving DecidableEq, Repr

/-- JS `a || b` for an optional string `a`: the fallback is used when the
field is missing or the empty string (falsy). -/
def jsOrElse (o : Option String) (d : String) : String :=
  match o with
  | some s => if s = "" then d else s
  | none => d

/-- JS `if (v) x = v` for an optional string: keep the old value unless the
new one is present and truthy. -/
def jsIfSet (o : Option String) (old : String) : String :=
  match o with
  | some v => if v = "" then old else v
  | none => old

/-- The i18n key surfaced by the fetch-failure path. -/
def lostConnectionMsg : String := "create.lostConnection"

/-- The i18n key surfaced by the completion path. -/
def musicGeneratedSuccessMsg : String := "create.musicGeneratedSuccess"

/-- The generic fallback for a server-reported failure without a usable
`error_message`. -/
def genericFailureMsg : String := "Generation failed."

/-- Shared state touched by the poller: the `createStore` fields written by
the interval callback, the local `progressMessage`, the `pollIntervalRef`
handle, plus event-loop bookkeeping: live interval timers (id ↦ closure's
task id), in-flight fetches (timer id of the callback that started them ↦
task id), scheduled scroll side effects (their delays in ms), and a fresh
timer-id counter. -/
structure PollerState where
  generationStatus : String
  progress : ℚ
  progressMessage : String
  errorMessage : String
  successMessage : String
  lyrics : String
  title : String
  pollIntervalRef : Option Nat
  activeIntervals : List (Nat × String)
  inFlight : List (Nat × String)
  scheduledScrolls : List Nat
  nextTimer : Nat
deriving DecidableEq, Repr

/-- Outcome of one status fetch: a parsed response, or a thrown
transport/parse error. -/
inductive FetchResult where
  | ok (g : GenResult)
  | err
deriving DecidableEq, Repr

/-- Atomic events of a poller execution. -/
inductive PollEvent where
  | startPoll (taskId : String)
  | fireTick (timer : Nat)
  | resolveFetch (timer : Nat) (r : FetchResult)
  | cancelPolling
deriving DecidableEq, Repr

/-- JS `clearInterval(t)`: the timer stops ticking. -/
def clearTimer (s : PollerState) (t : Nat) : PollerState :=
  { s with activeIntervals := s.activeIntervals.filter (fun p => p.1 ≠ t) }

/-- The `await` continuation of the interval callback in `pollTask`,
running after the fetch started by timer `timer` settles with `r`.  It
mirrors the source line by line; note that it runs regardless of whether
`timer` is still active, and that the terminal branches null the shared
`pollIntervalRef` unconditionally. -/
def runCallbackBody (s : PollerState) (timer : Nat) (r : FetchResult) :
    PollerState :=
  match r with
  | .err =>
    let s := clearTimer s timer
    { s with pollIntervalRef := none,
             generationStatus := "failed",
             errorMessage := lostConnectionMsg,
             progressMessage := "" }
  | .ok g =>
    let s := { s with progress := g.progress.getD 0,
                      progressMessage := jsOrElse g.progress_message "" }
    if g.status = "completed" then
      let s := { s with lyrics := jsIfSet g.lyrics s.lyrics,
                        title := jsIfSet g.title s.title,
                        generationStatus := "completed",
                        successMessage := musicGeneratedSuccessMsg,
                        progressMessage := "" }
      let s := clearTimer s timer
      { s with pollIntervalRef := none,
               scheduledScrolls := s.scheduledScrolls ++ [200] }
    else if g.status = "failed" then
      let s := { s with generationStatus := "failed",
                        errorMessage := jsOrElse g.error_message genericFailureMsg,
                        progressMessage := "" }
      let s := clearTimer s timer
      { s with pollIntervalRef := none }
    else s

/-- One event step of the poller model. A `fireTick` of an inactive timer
and a `resolveFetch` with nothing in flight are no-ops (the event loop
never delivers them). -/
def step (s : PollerState) : PollEvent → PollerState
  | .startPoll tid =>
    let s := match s.pollIntervalRef with
      | some t => clearTimer s t
      | none => s
    { s with activeIntervals := s.activeIntervals ++ [(s.nextTimer, tid)],
             pollIntervalRef := some s.nextTimer,
             nextTimer := s.nextTimer + 1 }
  | .fireTick timer =>
    match s.activeIntervals.find? (fun p => p.1 == timer) with
    | some p => { s with inFlight := s.inFlight ++ [p] }
    | none => s
  | .resolveFetch timer r =>
    match s.inFlight.find? (fun p => p.1 == timer) with
    | some _ =>
      runCallbackBody
        { s with inFlight := s.inFlight.eraseP (fun p => p.1 == timer) } timer r
    | none => s
  | .cancelPolling =>
    let s := match s.pollIntervalRef with
      | some t => { clearTimer s t with pollIntervalRef := none }
      | none => s
    { s with progressMessage := "" }

/-- Run a sequence of events. -/
def runEvents (s : PollerState) (evs : List PollEvent) : PollerState :=
  evs.foldl step s

/-- A clean initial state: nothing polling, nothing in flight. -/
def pollInit : PollerState :=
  ⟨"idle", 0, "", "", "", "", "", none, [], [], [], 0⟩

/-- A timer is dead in a state: not live, and never re-allocatable. -/
def deadTimer (t : Nat) (s : PollerState) : Prop :=
  (∀ p ∈ s.activeIntervals, p.1 ≠ t) ∧ t < s.nextTimer

/-- Modelled from the spec: plain-text lines produced from timed lines with
a single blank line inserted exactly at gaps over 6 seconds. -/
def gapRest (prev : ℚ) : List (ℚ × String) → List String
  | [] => []
  | (t, x) :: rest => (if t - prev > 6 then ["", x] else [x]) ++ gapRest t rest

/-- Modelled from the spec: the full gap-separated plain-line list. -/
def gapJoin : List (ℚ × String) → List String
  | [] => []
  | (t0, x0) :: rest => x0 :: gapRest t0 rest

/-- A line that matches the LRC pattern with non-empty trimmed text. -/
def isTimedLine (raw : String) : Bool :=
  match lrcLineMatch raw with
  | some q => q.2 != ""
  | none => false

/-! ## Concrete inputs used by witnesses and counterexamples -/

/-- The C8 witness input: gaps of 2 s (no break) and 7 s (break). -/
def c8lrc : String := "[00:01.00]a\n[00:03.00]b\n[00:10.00]c"

/-- A pending status response. -/
def gPending : GenResult := ⟨"pending", some 5, some "queued", none, none, none⟩

/-- A processing status response. -/
def gProcessing : GenResult :=
  ⟨"processing", some 50, some "rendering", none, none, none⟩

/-- A completed status response carrying lyrics and a title. -/
def gCompleted : GenResult :=
  ⟨"completed", some 100, none, some "OUT-LYRICS", some "OUT-TITLE", none⟩

/-- A failed status response with a server-provided message. -/
def gFailed : GenResult :=
  ⟨"failed", some 80, none, none, none, some "model unavailable"⟩

/-- State with one active loop (timer 0 for task T) and one fetch in
flight. -/
def c2state : PollerState := runEvents pollInit [.startPoll "T", .fireTick 0]

/-- State after the status sequence [pending, processing, processing] with
a fourth fetch in flight: the claim C4 example just before the `completed`
observation. -/
def c4state : PollerState :=
  runEvents pollInit
    [.startPoll "T", .fireTick 0, .resolveFetch 0 (.ok gPending),
     .fireTick 0, .resolveFetch 0 (.ok gProcessing),
     .fireTick 0, .resolveFetch 0 (.ok gProcessing), .fireTick 0]

/-- State for C1: `pollTask "A"`, one fetch of A's loop in flight, then
`pollTask "B"`. -/
def c1state : PollerState :=
  runEvents pollInit [.startPoll "A", .fireTick 0, .startPoll "B"]

/-! ## Helper lemmas -/

theorem parseLRC_foldl (ls : List String) (acc : List TimedLyricLine) :
    ls.foldl parseLRCStep acc = acc ++ ls.filterMap lrcKeep := by
  induction ls generalizing acc with
  | nil => simp
  | cons raw ls ih =>
    rw [List.foldl_cons, List.filterMap_cons, ih]
    unfold parseLRCStep lrcKeep
    cases h : lrcLineMatch raw with
    | none => simp
    | some q =>
      obtain ⟨time, text⟩ := q
      dsimp only
      by_cases hk : text ≠ "" ∧ ¬ (sectionPatternTest text = true)
      · rw [if_pos hk, if_pos hk]
        simp [List.append_assoc]
      · rw [if_neg hk, if_neg hk]

/-- The scan loop computes the length of the satisfied prefix, offset by
the running index. -/
theorem findGo_eq (t : ℚ) (ls : List TimedLyricLine) (i : Int) :
    findGo t ls i (i - 1) =
      i + ((ls.takeWhile (fun l => decide (l.time ≤ t))).length : Int) - 1 := by
  induction ls generalizing i with
  | nil => simp [findGo]
  | cons l rest ih =>
    unfold findGo
    by_cases h : l.time ≤ t
    · rw [if_pos h]
      have h2 := ih (i + 1)
      rw [show i + 1 - 1 = i from by omega] at h2
      rw [h2, List.takeWhile_cons_of_pos (by simpa using h)]
      simp only [List.length_cons]
      omega
    · rw [if_neg h, List.takeWhile_cons_of_neg (by simpa using h)]
      simp

/-- On a list sorted by time, the lines with `time ≤ t` form a prefix. -/
theorem countP_eq_takeWhile_len (t : ℚ) (ls : List TimedLyricLine)
    (h : ls.Pairwise (fun a b => a.time ≤ b.time)) :
    ls.countP (fun l => decide (l.time ≤ t)) =
      (ls.takeWhile (fun l => decide (l.time ≤ t))).length := by
  induction ls with
  | nil => simp
  | cons l rest ih =>
    rcases List.pairwise_cons.mp h with ⟨hhead, htail⟩
    by_cases hl : l.time ≤ t
    · simp [List.countP_cons, List.takeWhile_cons, hl, ih htail]
    · simp only [List.countP_cons, List.takeWhile_cons, hl]
      have hz : rest.countP (fun l => decide (l.time ≤ t)) = 0 := by
        rw [List.countP_eq_zero]
        intro a ha
        simp only [decide_eq_true_eq]
        intro hle
        exact hl (le_trans (hhead a ha) hle)
      simp [hz]

/-! ## Claim theorems -/

/-- C5: `parseLRC` returns exactly the source lines matching
`[MM:SS.ff]text` (2- or 3-digit fraction), in source order, converted to
(seconds, trimmed text) with a 2-digit fraction read as centiseconds and a
3-digit one as milliseconds, excluding lines whose trimmed text is empty
or a structural marker; in particular
`parseLRC "[00:01.50]Hello\n[00:03.00]World"` is
`[(1.5, "Hello"), (3, "World")]`. -/
theorem C5_parseLRC_keeps_matching_lines :
    (∀ s : String, parseLRC s = (splitNl s).filterMap lrcKeep) ∧
    parseLRC "[00:01.50]Hello\n[00:03.00]World" =
      [⟨3/2, "Hello"⟩, ⟨3, "World"⟩] := by
  constructor
  · intro s
    unfold parseLRC
    rw [parseLRC_foldl]
    simp
  · have h : parseLRC "[00:01.50]Hello\n[00:03.00]World" =
        [⟨mkRat 1500 1000, "Hello"⟩, ⟨mkRat 3000 1000, "World"⟩] := by decide
    rw [h]
    norm_num [Rat.mkRat_eq_div]

/-- C6: on a list of timed lines with non-decreasing times,
`findActiveLRCIndex` returns the index of the last line with `time ≤ t`
(the number of such lines minus one), hence `-1` when the list is empty or
`t` precedes the first line. -/
theorem C6_findActiveLRCIndex_last_le (lines : List TimedLyricLine) (t : ℚ)
    (hsorted : lines.Pairwise (fun a b => a.time ≤ b.time)) :
    findActiveLRCIndex lines t =
      ((lines.countP (fun l => decide (l.time ≤ t))) : Int) - 1 := by
  unfold findActiveLRCIndex
  by_cases hnil : lines.length = 0
  · rw [if_pos hnil]
    rw [List.length_eq_zero] at hnil
    subst hnil
    simp
  · rw [if_neg hnil]
    rw [countP_eq_takeWhile_len t lines hsorted]
    have h0 := findGo_eq t lines 0
    simpa using h0

/-- Witness for C6 at the claim's example list and times 7, 4 and -1. -/
theorem C6_witness :
    findActiveLRCIndex [⟨0, "a"⟩, ⟨5, "b"⟩, ⟨10, "c"⟩] 7 = 1 ∧
    findActiveLRCIndex [⟨0, "a"⟩, ⟨5, "b"⟩, ⟨10, "c"⟩] 4 = 0 ∧
    findActiveLRCIndex [⟨0, "a"⟩, ⟨5, "b"⟩, ⟨10, "c"⟩] (-1) = -1 := by
  have hs : ([⟨0, "a"⟩, ⟨5, "b"⟩, ⟨10, "c"⟩] :
      List TimedLyricLine).Pairwise (fun a b => a.time ≤ b.time) := by
    decide
  refine ⟨?_, ?_, ?_⟩
  · rw [C6_findActiveLRCIndex_last_le _ _ hs]; decide
  · rw [C6_findActiveLRCIndex_last_le _ _ hs]; decide
  · rw [C6_findActiveLRCIndex_last_le _ _ hs]; decide

theorem splitLastBracket_eq :
    ∀ cs mid, splitLastBracket cs = some mid → cs = mid ++ [']'] := by
  intro cs
  induction cs with
  | nil => intro mid h; simp [splitLastBracket] at h
  | cons c cs ih =>
    intro mid h
    cases cs with
    | nil =>
      unfold splitLastBracket at h
      by_cases hc : c = ']'
      · rw [if_pos hc] at h
        cases h
        simp [hc]
      · rw [if_neg hc] at h
        cases h
    | cons c' cs' =>
      unfold splitLastBracket at h
      cases h2 : splitLastBracket (c' :: cs') with
      | none => rw [h2] at h; cases h
      | some m' =>
        rw [h2] at h
        cases h
        rw [ih m' h2]
        simp

theorem tagOf_sound (l : String) (t : String) (h : tagOf l = some t) :
    l = "[" ++ t ++ "]" ∧ t ≠ "" := by
  unfold tagOf at h
  cases hd : l.data with
  | nil => rw [hd] at h; cases h
  | cons c rest =>
    rw [hd] at h
    dsimp only at h
    by_cases hc : c = '['
    · rw [if_pos hc] at h
      cases hs : splitLastBracket rest with
      | none => rw [hs] at h; cases h
      | some mid =>
        rw [hs] at h
        dsimp only at h
        by_cases hm : mid ≠ [] ∧ mid.all (fun c => !(isLineTerm c)) = true
        · rw [if_pos hm] at h
          cases h
          have hrest := splitLastBracket_eq rest mid hs
          constructor
          · apply String.ext
            rw [hd, hc, hrest]
            simp [String.data_append]
          · intro hcon
            apply hm.1
            have := congrArg String.data hcon
            simpa using this
        · rw [if_neg hm] at h
          cases h
    · rw [if_neg hc] at h
      cases h

/-- The accumulator loop of `parseLyrics` agrees with the right-recursive
grouping of the line list. -/
theorem parseLyricsGo_eq (ls : List String) :
    ∀ (tag : String) (acc : List String) (idx : Nat),
    parseLyricsGo ls tag acc idx =
      mkSecs ((if acc ++ (splitSections ls).1 = [] ∧ tag = "" then []
               else [(tag, acc ++ (splitSections ls).1)]) ++
              (splitSections ls).2) idx := by
  induction ls with
  | nil =>
    intro tag acc idx
    unfold parseLyricsGo splitSections
    by_cases h : acc = [] ∧ tag = ""
    · rw [if_neg, if_pos (by simpa using h)]
      · rfl
      · push_neg
        exact ⟨by simp [h.1], h.2⟩
    · rw [if_pos, if_neg (by simpa using h)]
      · simp [mkSecs]
      · rcases not_and_or.mp h with h1 | h1
        · exact Or.inl (by simpa [List.length_pos] using h1)
        · exact Or.inr h1
  | cons l ls ih =>
    intro tag acc idx
    unfold parseLyricsGo splitSections
    cases ht : tagOf l with
    | some t =>
      dsimp only
      have hne := (tagOf_sound l t ht).2
      have ihspec : ∀ idx', parseLyricsGo ls t [] idx' =
          mkSecs ((t, (splitSections ls).1) :: (splitSections ls).2) idx' := by
        intro idx'
        rw [ih t [] idx', if_neg]
        · simp
        · simp [hne]
      by_cases h : acc = [] ∧ tag = ""
      · rw [if_neg, if_pos (by simpa using h)]
        · simp [ihspec idx]
        · push_neg
          exact ⟨by simp [h.1], h.2⟩
      · rw [if_pos, if_neg (by simpa using h)]
        · simp [ihspec (idx + 1), mkSecs]
        · rcases not_and_or.mp h with h1 | h1
          · exact Or.inl (by simpa [List.length_pos] using h1)
          · exact Or.inr h1
    | none =>
      dsimp only
      rw [ih tag (acc ++ [l]) idx]
      have hc : ∀ xs : List String, (acc ++ [l]) ++ xs = acc ++ (l :: xs) := by
        intro xs
        simp
      rw [if_neg (by simp), if_neg (by simp), hc]

/-- C7: `parseLyrics` scans lines so that an exact `[TagName]` line starts
a new section and other lines accumulate under the current one, a pending
section being emitted at a new tag line or end of input when it has a
non-empty tag or accumulated lines; equivalently, the output is the
leading untagged block (when non-empty) followed by one section per tag
line; in particular `"[Verse]\nline1\nline2\n[Chorus]\nline3"` yields
exactly `{Verse, [line1, line2], 0}` and `{Chorus, [line3], 1}`. -/
theorem C7_parseLyrics_sections :
    (∀ s : String, parseLyrics s = specSections s) ∧
    parseLyrics "[Verse]\nline1\nline2\n[Chorus]\nline3" =
      [⟨"Verse", ["line1", "line2"], 0⟩, ⟨"Chorus", ["line3"], 1⟩] := by
  constructor
  · intro s
    unfold parseLyrics specSections
    rw [parseLyricsGo_eq]
    by_cases h : (splitSections (splitNl s)).1 = []
    · simp [h]
    · simp [h]
  · decide

/-- Every parsed section re-prints to its source lines. -/
theorem reconstruct_go (ls : List String) :
    ∀ (tag : String) (acc : List String) (idx : Nat),
    reconstructSections (parseLyricsGo ls tag acc idx) =
      (if tag = "" then [] else ["[" ++ tag ++ "]"]) ++ acc ++ ls := by
  induction ls with
  | nil =>
    intro tag acc idx
    unfold parseLyricsGo
    by_cases h : acc.length > 0 ∨ tag ≠ ""
    · rw [if_pos h]
      unfold reconstructSections sectionRepr
      simp
    · rw [if_neg h]
      push_neg at h
      have hacc : acc = [] := by
        have := h.1
        simpa [List.length_pos] using this
      simp [reconstructSections, hacc, h.2]
  | cons l ls ih =>
    intro tag acc idx
    unfold parseLyricsGo
    cases ht : tagOf l with
    | some t =>
      dsimp only
      obtain ⟨hl, hne⟩ := tagOf_sound l t ht
      by_cases h : acc.length > 0 ∨ tag ≠ ""
      · rw [if_pos h]
        show reconstructSections (⟨tag, acc, idx⟩ :: parseLyricsGo ls t [] (idx + 1)) = _
        unfold reconstructSections
        rw [List.map_cons, List.flatten_cons]
        have := ih t [] (idx + 1)
        unfold reconstructSections at this
        rw [this, if_neg hne, ← hl]
        unfold sectionRepr
        simp
      · rw [if_neg h]
        push_neg at h
        have hacc : acc = [] := by
          simpa [List.length_pos] using h.1
        rw [ih t [] idx, if_neg hne, ← hl]
        simp [hacc, h.2]
    | none =>
      dsimp only
      rw [ih tag (acc ++ [l]) idx]
      simp

/-- C9: section-tag parsing followed by re-joining each section's tag line
and body reconstructs the source text's line sequence, so the lines of
every section keep their original relative order. -/
theorem C9_parseLyrics_reconstruct (s : String) :
    reconstructSections (parseLyrics s) = splitNl s := by
  unfold parseLyrics
  rw [reconstruct_go]
  simp

/-- The sections produced from index `idx` carry consecutive indexes. -/
theorem parseLyricsGo_indexes (ls : List String) :
    ∀ (tag : String) (acc : List String) (idx : Nat),
    (parseLyricsGo ls tag acc idx).map (fun sec => sec.index) =
      List.range' idx (parseLyricsGo ls tag acc idx).length := by
  induction ls with
  | nil =>
    intro tag acc idx
    unfold parseLyricsGo
    by_cases h : acc.length > 0 ∨ tag ≠ ""
    · rw [if_pos h]
      simp [List.range']
    · rw [if_neg h]
      simp
  | cons l ls ih =>
    intro tag acc idx
    unfold parseLyricsGo
    cases ht : tagOf l with
    | some t =>
      dsimp only
      by_cases h : acc.length > 0 ∨ tag ≠ ""
      · rw [if_pos h]
        rw [List.map_cons, ih t [] (idx + 1)]
        simp [List.range']
      · rw [if_neg h]
        exact ih t [] idx
    | none =>
      dsimp only
      exact ih tag (acc ++ [l]) idx

/-- C10: the `index` field of the k-th section returned by `parseLyrics`
equals k: indexes are consecutive from 0 and equal each section's position
in the returned list. -/
theorem C10_section_indexes (s : String) :
    (parseLyrics s).map (fun sec => sec.index) =
      List.range (parseLyrics s).length := by
  unfold parseLyrics
  rw [parseLyricsGo_indexes, List.range_eq_range']

/-- Reduced form of `lrcToPlainStep` on a line matching with non-empty
text. -/
theorem lrcToPlainStep_matched (st : List String × ℚ) (raw : String)
    (time : ℚ) (text : String)
    (hm : lrcLineMatch raw = some (time, text)) (ht : text ≠ "") :
    lrcToPlainStep st raw =
      ((if st.1.length > 0 ∧ time - st.2 > 6 then st.1 ++ [""] else st.1)
        ++ [text], time) := by
  unfold lrcToPlainStep
  rw [hm]
  dsimp only
  rw [if_neg ht]

/-- On all-timed input, the `lrcToPlain` fold extends a non-empty output
with the gap-separated texts. -/
theorem lrcToPlain_fold (ls : List String) :
    ∀ (res : List String) (prev : ℚ),
    (∀ raw ∈ ls, isTimedLine raw = true) → res ≠ [] →
    (ls.foldl lrcToPlainStep (res, prev)).1 =
      res ++ gapRest prev (ls.filterMap lrcLineMatch) := by
  induction ls with
  | nil =>
    intro res prev _ _
    simp [gapRest]
  | cons raw ls ih =>
    intro res prev hall hres
    have hr := hall raw (by simp)
    unfold isTimedLine at hr
    cases hm : lrcLineMatch raw with
    | none => rw [hm] at hr; cases hr
    | some q =>
      obtain ⟨time, text⟩ := q
      rw [hm] at hr
      have htext : text ≠ "" := by simpa using hr
      rw [List.foldl_cons, List.filterMap_cons, hm,
        lrcToPlainStep_matched (res, prev) raw time text hm htext]
      dsimp only
      have hlen : res.length > 0 := List.length_pos.mpr hres
      have hall' : ∀ r ∈ ls, isTimedLine r = true := by
        intro r hrm
        exact hall r (by simp [hrm])
      unfold gapRest
      by_cases hgap : time - prev > 6
      · rw [if_pos ⟨hlen, hgap⟩, if_pos hgap,
          ih (res ++ [""] ++ [text]) time hall' (by simp)]
        simp
      · rw [if_neg (fun hc => hgap hc.2), if_neg hgap,
          ih (res ++ [text]) time hall' (by simp)]
        simp

/-- C8: on time-coded input (every line matches with non-empty text),
`lrcToPlain` strips the timestamps and inserts exactly one blank line
between two consecutive timed lines whose timestamps differ by more than
6 seconds, and none when the gap is at most 6 seconds. -/
theorem C8_lrcToPlain_gaps (lrc : String)
    (hall : ∀ raw ∈ splitNl lrc, isTimedLine raw = true) :
    lrcToPlain lrc =
      String.intercalate "\n"
        (gapJoin ((splitNl lrc).filterMap lrcLineMatch)) := by
  unfold lrcToPlain
  cases hl : splitNl lrc with
  | nil => simp [gapJoin]
  | cons raw ls =>
    rw [hl] at hall
    have hr := hall raw (by simp)
    unfold isTimedLine at hr
    cases hm : lrcLineMatch raw with
    | none => rw [hm] at hr; cases hr
    | some q =>
      obtain ⟨time, text⟩ := q
      rw [hm] at hr
      have htext : text ≠ "" := by simpa using hr
      rw [List.foldl_cons, List.filterMap_cons, hm,
        lrcToPlainStep_matched ([], 0) raw time text hm htext]
      dsimp only
      rw [if_neg (by simp)]
      rw [lrcToPlain_fold ls ([] ++ [text]) time
        (fun r hrm => hall r (by simp [hrm])) (by simp)]
      unfold gapJoin
      simp

/-- Witness for C8 at a concrete time-coded input: the 2-second gap gets
no blank line, the 7-second gap exactly one. -/
theorem C8_witness :
    lrcToPlain c8lrc =
      String.intercalate "\n"
        (gapJoin ((splitNl c8lrc).filterMap lrcLineMatch)) ∧
    lrcToPlain c8lrc = "a\nb\n\nc" := by
  have h := C8_lrcToPlain_gaps c8lrc (by decide)
  refine ⟨h, ?_⟩
  rw [h]
  have hfm : (splitNl c8lrc).filterMap lrcLineMatch =
      [(mkRat 1000 1000, "a"), (mkRat 3000 1000, "b"),
       (mkRat 10000 1000, "c")] := by decide
  rw [hfm]
  simp only [gapJoin, gapRest]
  rw [if_neg (by norm_num [Rat.mkRat_eq_div]),
    if_pos (by norm_num [Rat.mkRat_eq_div])]
  decide

/-! ## Poller lemmas -/

/-- Reduction of `step` on a delivered fetch resolution: erase the in-flight entry and
runs the callback continuation. -/
theorem step_resolveFetch_found (s : PollerState) (timer : Nat)
    (r : FetchResult) (p : Nat × String)
    (hf : s.inFlight.find? (fun q => q.1 == timer) = some p) :
    step s (.resolveFetch timer r) =
      runCallbackBody
        { s with inFlight := s.inFlight.eraseP (fun q => q.1 == timer) }
        timer r := by
  unfold step
  dsimp only
  rw [hf]

/-- A dead timer stays dead across `clearTimer`. -/
theorem deadTimer_clearTimer (t u : Nat) (s : PollerState)
    (h : deadTimer t s) : deadTimer t (clearTimer s u) :=
  ⟨fun p hp => h.1 p (List.mem_of_mem_filter hp), h.2⟩

/-- A dead timer stays dead across the callback continuation. -/
theorem deadTimer_runCallbackBody (t timer : Nat) (s : PollerState)
    (r : FetchResult) (h : deadTimer t s) :
    deadTimer t (runCallbackBody s timer r) := by
  unfold runCallbackBody
  cases r with
  | err => exact ⟨fun p hp => h.1 p (List.mem_of_mem_filter hp), h.2⟩
  | ok g =>
    dsimp only
    by_cases h1 : g.status = "completed"
    · rw [if_pos h1]
      exact ⟨fun p hp => h.1 p (List.mem_of_mem_filter hp), h.2⟩
    · rw [if_neg h1]
      by_cases h2 : g.status = "failed"
      · rw [if_pos h2]
        exact ⟨fun p hp => h.1 p (List.mem_of_mem_filter hp), h.2⟩
      · rw [if_neg h2]
        exact h

/-- A dead timer stays dead across every event: no event re-activates a
timer id below the allocation counter. -/
theorem deadTimer_step (t : Nat) (s : PollerState) (e : PollEvent)
    (h : deadTimer t s) : deadTimer t (step s e) := by
  cases e with
  | startPoll tid =>
    unfold step
    dsimp only
    cases href : s.pollIntervalRef with
    | some u =>
      dsimp only
      constructor
      · intro p hp
        rcases List.mem_append.mp hp with hp1 | hp1
        · exact (deadTimer_clearTimer t u s h).1 p hp1
        · have hpe : p = (s.nextTimer, tid) := by simpa using hp1
          rw [hpe]
          exact fun hc => absurd hc.symm (Nat.ne_of_lt h.2)
      · exact Nat.lt_succ_of_lt h.2
    | none =>
      dsimp only
      constructor
      · intro p hp
        rcases List.mem_append.mp hp with hp1 | hp1
        · exact h.1 p hp1
        · have hpe : p = (s.nextTimer, tid) := by simpa using hp1
          rw [hpe]
          exact fun hc => absurd hc.symm (Nat.ne_of_lt h.2)
      · exact Nat.lt_succ_of_lt h.2
  | fireTick timer =>
    unfold step
    dsimp only
    cases hf : s.activeIntervals.find? (fun p => p.1 == timer) with
    | some p => exact h
    | none => exact h
  | resolveFetch timer r =>
    unfold step
    dsimp only
    cases hf : s.inFlight.find? (fun q => q.1 == timer) with
    | some p => exact deadTimer_runCallbackBody t timer _ r ⟨h.1, h.2⟩
    | none => exact h
  | cancelPolling =>
    unfold step
    dsimp only
    cases href : s.pollIntervalRef with
    | some u =>
      dsimp only
      exact ⟨fun p hp => h.1 p (List.mem_of_mem_filter hp), h.2⟩
    | none => exact h

/-- A dead timer stays dead across any event sequence. -/
theorem deadTimer_runEvents (t : Nat) (s : PollerState) (evs : List PollEvent)
    (h : deadTimer t s) : deadTimer t (runEvents s evs) := by
  induction evs generalizing s with
  | nil => exact h
  | cons e evs ih => exact ih (step s e) (deadTimer_step t s e h)

/-- A tick of a dead timer is never delivered: `fireTick` is a no-op. -/
theorem deadTimer_fireTick_noop (t : Nat) (s : PollerState)
    (h : deadTimer t s) : step s (.fireTick t) = s := by
  unfold step
  dsimp only
  have hf : s.activeIntervals.find? (fun p => p.1 == t) = none := by
    rw [List.find?_eq_none]
    intro p hp
    simpa using h.1 p hp
  rw [hf]

/-- A dead timer starts no fetch in any future state. -/
theorem dead_no_more_fetches (t : Nat) (s : PollerState) (h : deadTimer t s) :
    ∀ evs, step (runEvents s evs) (.fireTick t) = runEvents s evs :=
  fun evs => deadTimer_fireTick_noop t _ (deadTimer_runEvents t s evs h)

/-- C2: when a poll tick's status fetch fails, that same resolution stops
the loop's timer for good (no later fetch of this loop can start), sets
the generation status to "failed" with the generic lost-connection
message, and clears the in-progress message; there is no retry. -/
theorem C2_fetch_failure_fatal (s s' : PollerState) (timer : Nat)
    (hin : ∃ p ∈ s.inFlight, p.1 = timer)
    (hfresh : timer < s.nextTimer)
    (hs' : s' = step s (.resolveFetch timer .err)) :
    s'.generationStatus = "failed" ∧
    s'.errorMessage = lostConnectionMsg ∧
    s'.progressMessage = "" ∧
    s'.pollIntervalRef = none ∧
    (∀ p ∈ s'.activeIntervals, p.1 ≠ timer) ∧
    (∀ evs, step (runEvents s' evs) (.fireTick timer) = runEvents s' evs) := by
  obtain ⟨p0, hp0, hp0t⟩ := hin
  have hsome : (s.inFlight.find? (fun q => q.1 == timer)).isSome := by
    rw [List.find?_isSome]
    exact ⟨p0, hp0, by simpa using hp0t⟩
  cases hf : s.inFlight.find? (fun q => q.1 == timer) with
  | none => rw [hf] at hsome; cases hsome
  | some p =>
    subst hs'
    rw [step_resolveFetch_found s timer .err p hf]
    unfold runCallbackBody clearTimer
    dsimp only
    have hdead : ∀ q ∈ (s.activeIntervals.filter (fun q => q.1 ≠ timer)),
        q.1 ≠ timer := by
      intro q hq
      simpa using (List.mem_filter.mp hq).2
    exact ⟨rfl, rfl, rfl, rfl, hdead,
      dead_no_more_fetches timer _ ⟨hdead, hfresh⟩⟩

/-- Witness for C2: timer 0 polls task T, its fetch fails. -/
theorem C2_witness :
    (step c2state (.resolveFetch 0 .err)).generationStatus = "failed" ∧
    (step c2state (.resolveFetch 0 .err)).errorMessage = lostConnectionMsg ∧
    (step c2state (.resolveFetch 0 .err)).progressMessage = "" ∧
    step (step c2state (.resolveFetch 0 .err)) (.fireTick 0) =
      step c2state (.resolveFetch 0 .err) := by
  have h := C2_fetch_failure_fatal c2state (step c2state (.resolveFetch 0 .err))
    0 (by decide) (by decide) rfl
  refine ⟨h.1, h.2.1, h.2.2.1, ?_⟩
  have h6 := h.2.2.2.2.2 []
  simpa [runEvents] using h6

/-- C3: when a polled status is `failed`, that tick stops the loop's timer
for good, clears the in-progress message, and surfaces the server's
`error_message` verbatim when present and non-empty, else the generic
fallback. -/
theorem C3_server_failure_verbatim (s s' : PollerState) (timer : Nat)
    (g : GenResult)
    (hin : ∃ p ∈ s.inFlight, p.1 = timer)
    (hfresh : timer < s.nextTimer)
    (hg : g.status = "failed")
    (hs' : s' = step s (.resolveFetch timer (.ok g))) :
    s'.generationStatus = "failed" ∧
    (∀ m, g.error_message = some m → m ≠ "" → s'.errorMessage = m) ∧
    ((g.error_message = none ∨ g.error_message = some "") →
      s'.errorMessage = genericFailureMsg) ∧
    s'.progressMessage = "" ∧
    (∀ p ∈ s'.activeIntervals, p.1 ≠ timer) ∧
    (∀ evs, step (runEvents s' evs) (.fireTick timer) = runEvents s' evs) := by
  obtain ⟨p0, hp0, hp0t⟩ := hin
  have hsome : (s.inFlight.find? (fun q => q.1 == timer)).isSome := by
    rw [List.find?_isSome]
    exact ⟨p0, hp0, by simpa using hp0t⟩
  cases hf : s.inFlight.find? (fun q => q.1 == timer) with
  | none => rw [hf] at hsome; cases hsome
  | some p =>
    subst hs'
    rw [step_resolveFetch_found s timer (.ok g) p hf]
    unfold runCallbackBody clearTimer
    dsimp only
    rw [hg, if_neg (by decide), if_pos rfl]
    have hdead : ∀ q ∈ (s.activeIntervals.filter (fun q => q.1 ≠ timer)),
        q.1 ≠ timer := by
      intro q hq
      simpa using (List.mem_filter.mp hq).2
    refine ⟨rfl, ?_, ?_, rfl, hdead,
      dead_no_more_fetches timer _ ⟨hdead, hfresh⟩⟩
    · intro m hm hne
      show jsOrElse g.error_message genericFailureMsg = m
      unfold jsOrElse
      rw [hm]
      dsimp only
      rw [if_neg hne]
    · intro hcase
      show jsOrElse g.error_message genericFailureMsg = genericFailureMsg
      unfold jsOrElse
      rcases hcase with hc | hc
      · rw [hc]
      · rw [hc]
        simp

/-- Witness for C3: timer 0 polls task T; the server reports failure with
`error_message = "model unavailable"`; that exact string is surfaced. -/
theorem C3_witness :
    (step c2state (.resolveFetch 0 (.ok gFailed))).generationStatus =
      "failed" ∧
    (step c2state (.resolveFetch 0 (.ok gFailed))).errorMessage =
      "model unavailable" ∧
    (step c2state (.resolveFetch 0 (.ok gFailed))).progressMessage = "" ∧
    step (step c2state (.resolveFetch 0 (.ok gFailed))) (.fireTick 0) =
      step c2state (.resolveFetch 0 (.ok gFailed)) := by
  have h := C3_server_failure_verbatim c2state
    (step c2state (.resolveFetch 0 (.ok gFailed))) 0 gFailed
    (by decide) (by decide) rfl rfl
  refine ⟨h.1, h.2.1 "model unavailable" rfl (by decide), h.2.2.2.1, ?_⟩
  have h6 := h.2.2.2.2.2 []
  simpa [runEvents] using h6

/-- C4: when a polled status is `completed`, that tick applies the
returned lyrics and title when present (non-empty), records success,
clears the in-progress message, stops the loop's timer for good, and
schedules the scroll side effect with a 200 ms delay. -/
theorem C4_completed_applies_and_stops (s s' : PollerState) (timer : Nat)
    (g : GenResult)
    (hin : ∃ p ∈ s.inFlight, p.1 = timer)
    (hfresh : timer < s.nextTimer)
    (hg : g.status = "completed")
    (hs' : s' = step s (.resolveFetch timer (.ok g))) :
    s'.generationStatus = "completed" ∧
    s'.successMessage = musicGeneratedSuccessMsg ∧
    s'.progressMessage = "" ∧
    (∀ l, g.lyrics = some l → l ≠ "" → s'.lyrics = l) ∧
    (∀ ttl, g.title = some ttl → ttl ≠ "" → s'.title = ttl) ∧
    s'.scheduledScrolls = s.scheduledScrolls ++ [200] ∧
    (∀ p ∈ s'.activeIntervals, p.1 ≠ timer) ∧
    (∀ evs, step (runEvents s' evs) (.fireTick timer) = runEvents s' evs) := by
  obtain ⟨p0, hp0, hp0t⟩ := hin
  have hsome : (s.inFlight.find? (fun q => q.1 == timer)).isSome := by
    rw [List.find?_isSome]
    exact ⟨p0, hp0, by simpa using hp0t⟩
  cases hf : s.inFlight.find? (fun q => q.1 == timer) with
  | none => rw [hf] at hsome; cases hsome
  | some p =>
    subst hs'
    rw [step_resolveFetch_found s timer (.ok g) p hf]
    unfold runCallbackBody clearTimer
    dsimp only
    rw [hg, if_pos rfl]
    have hdead : ∀ q ∈ (s.activeIntervals.filter (fun q => q.1 ≠ timer)),
        q.1 ≠ timer := by
      intro q hq
      simpa using (List.mem_filter.mp hq).2
    refine ⟨rfl, rfl, rfl, ?_, ?_, rfl, hdead,
      dead_no_more_fetches timer _ ⟨hdead, hfresh⟩⟩
    · intro l hl hne
      show jsIfSet g.lyrics s.lyrics = l
      unfold jsIfSet
      rw [hl]
      dsimp only
      rw [if_neg hne]
    · intro ttl httl hne
      show jsIfSet g.title s.title = ttl
      unfold jsIfSet
      rw [httl]
      dsimp only
      rw [if_neg hne]

/-- Witness for C4: the claimed status sequence
[pending, processing, processing, completed] with a fetch in flight at the
final tick; the completed resolution applies the payload and stops the
loop. -/
theorem C4_witness :
    (step c4state (.resolveFetch 0 (.ok gCompleted))).generationStatus =
      "completed" ∧
    (step c4state (.resolveFetch 0 (.ok gCompleted))).successMessage =
      musicGeneratedSuccessMsg ∧
    (step c4state (.resolveFetch 0 (.ok gCompleted))).progressMessage = "" ∧
    (step c4state (.resolveFetch 0 (.ok gCompleted))).lyrics =
      "OUT-LYRICS" ∧
    (step c4state (.resolveFetch 0 (.ok gCompleted))).title = "OUT-TITLE" ∧
    (step c4state (.resolveFetch 0 (.ok gCompleted))).scheduledScrolls =
      c4state.scheduledScrolls ++ [200] ∧
    step (step c4state (.resolveFetch 0 (.ok gCompleted))) (.fireTick 0) =
      step c4state (.resolveFetch 0 (.ok gCompleted)) := by
  have h := C4_completed_applies_and_stops c4state
    (step c4state (.resolveFetch 0 (.ok gCompleted))) 0 gCompleted
    (by decide) (by decide) rfl rfl
  refine ⟨h.1, h.2.1, h.2.2.1, h.2.2.2.1 "OUT-LYRICS" rfl (by decide),
    h.2.2.2.2.1 "OUT-TITLE" rfl (by decide), h.2.2.2.2.2.1, ?_⟩
  have h8 := h.2.2.2.2.2.2.2 []
  simpa [runEvents] using h8

/-- Under the at-most-one-active-loop invariant, `pollTask` tears down the
previous interval and installs a single fresh one. -/
theorem startPoll_reset (s : PollerState) (tid : String)
    (hwf : ∀ p ∈ s.activeIntervals, s.pollIntervalRef = some p.1) :
    step s (.startPoll tid) =
      { s with activeIntervals := [(s.nextTimer, tid)],
               pollIntervalRef := some s.nextTimer,
               nextTimer := s.nextTimer + 1 } := by
  unfold step
  dsimp only
  cases href : s.pollIntervalRef with
  | some u =>
    dsimp only
    unfold clearTimer
    dsimp only
    have hfil : s.activeIntervals.filter (fun p => p.1 ≠ u) = [] := by
      rw [List.filter_eq_nil_iff]
      intro a ha
      have hau := hwf a ha
      rw [href] at hau
      have : a.1 = u := by
        injection hau.symm
      simp [this]
    rw [hfil]
    simp
  | none =>
    dsimp only
    have hnil : s.activeIntervals = [] := by
      rcases List.eq_nil_or_concat s.activeIntervals with h0 | ⟨l, a, h0⟩
      · exact h0
      · exfalso
        have := hwf a (by rw [h0]; simp)
        rw [href] at this
        cases this
    rw [hnil]
    simp

/-- A delivered tick of a live timer pushes its fetch in flight. -/
theorem fireTick_hit (s : PollerState) (timer : Nat) (p : Nat × String)
    (hf : s.activeIntervals.find? (fun q => q.1 == timer) = some p) :
    step s (.fireTick timer) = { s with inFlight := s.inFlight ++ [p] } := by
  unfold step
  dsimp only
  rw [hf]

/-- C1 as stated is false on the code: after `pollTask("A")`, a status
fetch of A's loop already in flight, and `pollTask("B")`, resolving A's
fetch still runs its callback, which mutates the shared generation-status
state — here the status becomes "completed" and A's lyrics payload
overwrites the store — even though B's loop (timer 1) is the only active
polling loop throughout. -/
theorem C1_counterexample :
    c1state.activeIntervals = [(1, "B")] ∧
    (0, "A") ∈ c1state.inFlight ∧
    c1state.generationStatus = "idle" ∧
    c1state.lyrics = "" ∧
    (step c1state (.resolveFetch 0 (.ok gCompleted))).generationStatus =
      "completed" ∧
    (step c1state (.resolveFetch 0 (.ok gCompleted))).lyrics =
      "OUT-LYRICS" ∧
    (step c1state (.resolveFetch 0 (.ok gCompleted))).activeIntervals =
      [(1, "B")] := by
  decide

/-- C1 amended: `pollTask(A)` then `pollTask(B)` before A's task is
terminal leaves exactly one active polling loop (B's), and no further
fetch of A's loop can start; but a status fetch of A's loop already in
flight when B started still resolves, and its callback still writes the
shared progress state. -/
theorem C1_amended_single_active_loop (s s1 s2 s3 : PollerState)
    (A B : String) (tA : Nat) (g : GenResult)
    (hwf : ∀ p ∈ s.activeIntervals, s.pollIntervalRef = some p.1)
    (htA : tA = s.nextTimer)
    (h1 : s1 = step s (.startPoll A))
    (h2 : s2 = step s1 (.fireTick tA))
    (h3 : s3 = step s2 (.startPoll B))
    (hg1 : g.status ≠ "completed") (hg2 : g.status ≠ "failed") :
    s3.activeIntervals = [(s.nextTimer + 1, B)] ∧
    step s3 (.fireTick tA) = s3 ∧
    (tA, A) ∈ s3.inFlight ∧
    (step s3 (.resolveFetch tA (.ok g))).progress = g.progress.getD 0 ∧
    (step s3 (.resolveFetch tA (.ok g))).progressMessage =
      jsOrElse g.progress_message "" := by
  subst htA h1 h2 h3
  rw [startPoll_reset s A hwf]
  rw [fireTick_hit _ s.nextTimer (s.nextTimer, A) (by simp [List.find?])]
  rw [startPoll_reset _ B (by intro p hp; simp at hp; rw [hp])]
  dsimp only
  have hmem : (s.nextTimer, A) ∈ s.inFlight ++ [(s.nextTimer, A)] := by simp
  have hsome : ((s.inFlight ++ [(s.nextTimer, A)]).find?
      (fun q => q.1 == s.nextTimer)).isSome := by
    rw [List.find?_isSome]
    exact ⟨(s.nextTimer, A), hmem, by simp⟩
  refine ⟨rfl, ?_, hmem, ?_⟩
  · apply deadTimer_fireTick_noop
    constructor
    · intro p hp
      have hpe : p = (s.nextTimer + 1, B) := by simpa using hp
      rw [hpe]
      exact Nat.succ_ne_self s.nextTimer
    · show s.nextTimer < s.nextTimer + 1 + 1
      omega
  · cases hf : (s.inFlight ++ [(s.nextTimer, A)]).find?
        (fun q => q.1 == s.nextTimer) with
    | none => rw [hf] at hsome; cases hsome
    | some p =>
      rw [step_resolveFetch_found _ s.nextTimer (.ok g) p hf]
      unfold runCallbackBody
      dsimp only
      rw [if_neg hg1, if_neg hg2]
      exact ⟨rfl, rfl⟩

/-- Witness for the amended C1: concrete tasks A and B from the clean
initial state, with a processing response for A's stale fetch. -/
theorem C1_amended_witness :
    c1state.activeIntervals = [(1, "B")] ∧
    step c1state (.fireTick 0) = c1state ∧
    (0, "A") ∈ c1state.inFlight ∧
    (step c1state (.resolveFetch 0 (.ok gProcessing))).progress =
      gProcessing.progress.getD 0 ∧
    (step c1state (.resolveFetch 0 (.ok gProcessing))).progressMessage =
      jsOrElse gProcessing.progress_message "" := by
  have h := C1_amended_single_active_loop pollInit
    (step pollInit (.startPoll "A"))
    (step (step pollInit (.startPoll "A")) (.fireTick 0))
    (step (step (step pollInit (.startPoll "A")) (.fireTick 0))
      (.startPoll "B"))
    "A" "B" 0 gProcessing (by decide) rfl rfl rfl rfl
    (by decide) (by decide)
  exact h

end GenerateMusic
